import Mathlib

/-!
Verification of the note storage and retrieval engine of the Squirrel
browser extension, centred on the remote (Supabase) storage backend.

The backend class `SupabaseStorage` holds a nullable client handle and talks
to a remote `notes` table; we embed it as a state (optional client handle
plus the table rows) and each method as a pure function from the state to a
result paired with the successor state.  Server-assigned values (row ids,
clock readings) become explicit parameters.  The pgvector cosine-distance
operator is external to the repository, so the server-side `match_notes`
function (whose SQL ships in the repository README) is embedded
parametrically in the distance function.  Embedding components are
rationals; errors are an explicit datatype mirroring the JavaScript `Error`
and PostgREST error shapes.
-/

namespace Squirrel

/-- Canonical vector dimensionality: `SupabaseStorage.VECTOR_DIMENSIONS = 1536`. -/
def VECTOR_DIMENSIONS : ℕ := 1536

/-- Provenance of a note: origin URL, page title, capture timestamp (epoch ms). -/
structure SourceInfo where
  url : String
  title : String
  timestamp : Int
deriving DecidableEq

/-- A row of the remote `notes` table. -/
structure NoteRow where
  id : String
  content : String
  embedding : List ℚ
  tags : List String
  source : SourceInfo
  created_at : Int
  updated_at : Int
deriving DecidableEq

/-- The `Note` entity as returned to callers. -/
structure Note where
  id : String
  content : String
  embedding : List ℚ
  tags : List String
  source : SourceInfo
  createdAt : Int
  updatedAt : Int
deriving DecidableEq

/-- Conversion of a table row to a caller-facing `Note` (the field-by-field
mapping done at the end of every SupabaseStorage method). -/
def toNote (r : NoteRow) : Note :=
  ⟨r.id, r.content, r.embedding, r.tags, r.source, r.created_at, r.updated_at⟩

/-- Errors surfaced by the backend: a plain JavaScript `Error` carrying a
message, or a PostgREST error carrying a code and a message. -/
inductive StorageError where
  | jsError (message : String) : StorageError
  | postgrest (code : String) (message : String) : StorageError
deriving DecidableEq

/-- The `code` field read by `getNote` when it checks for `PGRST116`; a plain
JavaScript `Error` has no such field. -/
def StorageError.errCode : StorageError → Option String
  | .jsError _ => none
  | .postgrest code _ => some code

/-- The error thrown by `ensureClient` when the client handle is null. -/
def notInitError : StorageError :=
  .jsError "Supabase client not initialized. Call initialize() first."

/-- State of a `SupabaseStorage` instance: the nullable client handle and the
rows of the remote `notes` table it talks to. -/
structure SupabaseStorage where
  client : Option Unit
  rows : List NoteRow
deriving DecidableEq

namespace SupabaseStorage

/-- `normalizeEmbedding`: pad with zeros up to `VECTOR_DIMENSIONS`, truncate
above it, return unchanged at it. -/
def normalizeEmbedding (embedding : List ℚ) : List ℚ :=
  if embedding.length = VECTOR_DIMENSIONS then
    embedding
  else if VECTOR_DIMENSIONS < embedding.length then
    embedding.take VECTOR_DIMENSIONS
  else
    embedding ++ List.replicate (VECTOR_DIMENSIONS - embedding.length) 0

/-- Models `initialize()`, which creates the client and stores the handle. -/
def setup (st : SupabaseStorage) : SupabaseStorage :=
  ⟨some (), st.rows⟩

/-- `ensureClient`: throw when the client handle is still null. -/
def ensureClient (st : SupabaseStorage) : Except StorageError Unit :=
  match st.client with
  | none => .error notInitError
  | some _ => .ok ()

/-- PostgREST `.single()`: exactly one row, otherwise an error with code
`PGRST116`. -/
def single (rows : List NoteRow) : Except StorageError NoteRow :=
  match rows with
  | [r] => .ok r
  | _ => .error (.postgrest "PGRST116"
      "JSON object requested, multiple (or no) rows returned")

/-- `saveNote`: normalize the embedding, insert the row (the server assigns
`newId` and stamps both timestamps with `now`), return the saved `Note`. -/
def saveNote (st : SupabaseStorage) (content : String) (embedding : List ℚ)
    (tags : List String) (source : SourceInfo) (newId : String) (now : Int) :
    Except StorageError Note × SupabaseStorage :=
  match ensureClient st with
  | .error e => (.error e, st)
  | .ok _ =>
    let row : NoteRow := ⟨newId, content, normalizeEmbedding embedding, tags, source, now, now⟩
    (.ok (toNote row), ⟨st.client, st.rows ++ [row]⟩)

/-- `getNote`: point lookup by id through `.single()`; a `PGRST116` error is
mapped to the null result, any other error is rethrown. -/
def getNote (st : SupabaseStorage) (id : String) :
    Except StorageError (Option Note) × SupabaseStorage :=
  match ensureClient st with
  | .error e => (.error e, st)
  | .ok _ =>
    match single (st.rows.filter (fun r => decide (r.id = id))) with
    | .error e =>
      if e.errCode = some "PGRST116" then (.ok none, st) else (.error e, st)
    | .ok r => (.ok (some (toNote r)), st)

/-- `getAllNotes`: every row, ordered by `created_at` descending. -/
def getAllNotes (st : SupabaseStorage) :
    Except StorageError (List Note) × SupabaseStorage :=
  match ensureClient st with
  | .error e => (.error e, st)
  | .ok _ =>
    (.ok ((st.rows.insertionSort (fun a b => b.created_at ≤ a.created_at)).map toNote), st)

/-- `deleteNote`: `delete().eq('id', id)`; deleting zero rows is not an
error. -/
def deleteNote (st : SupabaseStorage) (id : String) :
    Except StorageError Unit × SupabaseStorage :=
  match ensureClient st with
  | .error e => (.error e, st)
  | .ok _ =>
    (.ok (), ⟨st.client, st.rows.filter (fun r => decide (¬ r.id = id))⟩)

/-- The partial fields a caller may supply to `updateNote`. -/
structure NoteUpdates where
  content : Option String
  embedding : Option (List ℚ)
  tags : Option (List String)
  source : Option SourceInfo
deriving DecidableEq

/-- The row update sent by `updateNote`: absent fields are omitted from the
payload and left unchanged, a supplied embedding is normalized first, and
`updated_at` is always set to the current time. -/
def applyUpdates (u : NoteUpdates) (now : Int) (r : NoteRow) : NoteRow :=
  ⟨r.id,
   u.content.getD r.content,
   (match u.embedding with
    | some e => normalizeEmbedding e
    | none => r.embedding),
   u.tags.getD r.tags,
   u.source.getD r.source,
   r.created_at,
   now⟩

/-- `updateNote`: update the row matching `id` and read it back through
`.select().single()`; when no row matches, the `PGRST116` error is rethrown
as-is. -/
def updateNote (st : SupabaseStorage) (id : String) (updates : NoteUpdates)
    (now : Int) : Except StorageError Note × SupabaseStorage :=
  match ensureClient st with
  | .error e => (.error e, st)
  | .ok _ =>
    let newRows := st.rows.map (fun r => if r.id = id then applyUpdates updates now r else r)
    match single (st.rows.filter (fun r => decide (r.id = id))) with
    | .error e => (.error e, ⟨st.client, newRows⟩)
    | .ok r => (.ok (toNote (applyUpdates updates now r)), ⟨st.client, newRows⟩)

/-- `searchNotes`: the store's native full-text search over `content`,
embedded parametrically in the match predicate `tsMatch query content`. -/
def searchNotes (tsMatch : String → String → Bool) (st : SupabaseStorage)
    (query : String) : Except StorageError (List Note) × SupabaseStorage :=
  match ensureClient st with
  | .error e => (.error e, st)
  | .ok _ =>
    (.ok ((st.rows.filter (fun r => tsMatch query r.content)).map toNote), st)

/-- The server-side `match_notes` SQL function: keep the rows whose cosine
similarity `1 - (embedding <=> query_embedding)` exceeds the threshold,
order by cosine distance ascending, return at most `match_count` rows
together with their similarity column.  The pgvector distance operator
`<=>` is external, so it is a parameter `dist`. -/
def match_notes (dist : List ℚ → List ℚ → ℚ) (rows : List NoteRow)
    (query_embedding : List ℚ) (match_threshold : ℚ) (match_count : ℕ) :
    List (NoteRow × ℚ) :=
  ((((rows.filter
        (fun r => decide (match_threshold < 1 - dist r.embedding query_embedding))).map
      (fun r => (r, 1 - dist r.embedding query_embedding))).insertionSort
      (fun a b => dist a.1.embedding query_embedding ≤ dist b.1.embedding query_embedding)).take
    match_count)

/-- `searchByVector`: normalize the query embedding, call the `match_notes`
RPC with threshold 0.3 and the requested count, and map the returned rows
to notes (an empty result is returned as the empty list, not an error). -/
def searchByVector (dist : List ℚ → List ℚ → ℚ) (st : SupabaseStorage)
    (embedding : List ℚ) (limit : ℕ) :
    Except StorageError (List Note) × SupabaseStorage :=
  match ensureClient st with
  | .error e => (.error e, st)
  | .ok _ =>
    let normalizedEmbedding := normalizeEmbedding embedding
    let data := match_notes dist st.rows normalizedEmbedding (3 / 10) limit
    (.ok (data.map (fun d => toNote d.1)), st)

/-- `searchByVector` with the default result count of 10, taken when the
caller supplies no limit. -/
def searchByVectorDefault (dist : List ℚ → List ℚ → ℚ) (st : SupabaseStorage)
    (embedding : List ℚ) : Except StorageError (List Note) × SupabaseStorage :=
  searchByVector dist st embedding 10

/-- `searchByTag`: rows whose `tags` array contains the tag. -/
def searchByTag (st : SupabaseStorage) (tag : String) :
    Except StorageError (List Note) × SupabaseStorage :=
  match ensureClient st with
  | .error e => (.error e, st)
  | .ok _ =>
    (.ok ((st.rows.filter (fun r => decide (tag ∈ r.tags))).map toNote), st)

/-- `getRecentNotes`: rows ordered by `created_at` descending, limited. -/
def getRecentNotes (st : SupabaseStorage) (limit : ℕ) :
    Except StorageError (List Note) × SupabaseStorage :=
  match ensureClient st with
  | .error e => (.error e, st)
  | .ok _ =>
    (.ok (((st.rows.insertionSort (fun a b => b.created_at ≤ a.created_at)).take limit).map
      toNote), st)

/-- `getTags`: collect every tag of every row into a set and return the
sorted distinct tags. -/
def getTags (st : SupabaseStorage) :
    Except StorageError (List String) × SupabaseStorage :=
  match ensureClient st with
  | .error e => (.error e, st)
  | .ok _ =>
    (.ok (((st.rows.flatMap (fun r => r.tags)).dedup).insertionSort (fun a b => a ≤ b)), st)

/-- `clearAll`: `delete().neq('id', '00000000-0000-0000-0000-000000000000')`,
so exactly the rows whose id differs from the zero UUID are removed. -/
def clearAll (st : SupabaseStorage) :
    Except StorageError Unit × SupabaseStorage :=
  match ensureClient st with
  | .error e => (.error e, st)
  | .ok _ =>
    (.ok (),
     ⟨st.client,
      st.rows.filter (fun r => decide (r.id = "00000000-0000-0000-0000-000000000000"))⟩)

/-- A heap of JavaScript arrays: references are indices into the list of
cells; reading an invalid reference yields the empty array.  Used to state
that `normalizeEmbedding` never mutates its argument array. -/
abbrev Heap := List (List ℚ)

/-- Read the array a reference points to. -/
def Heap.read (h : Heap) (r : ℕ) : List ℚ := h.getD r []

/-- Mutate in place the array a reference points to. -/
def Heap.write (h : Heap) (r : ℕ) (v : List ℚ) : Heap := h.set r v

/-- Allocate a fresh array (`slice` or a spread copy) and return the extended
heap together with the new reference. -/
def Heap.alloc (h : Heap) (v : List ℚ) : Heap × ℕ := (h ++ [v], h.length)

/-- The `while (normalized.length < VECTOR_DIMENSIONS) normalized.push(0)`
loop, pushing onto the heap cell the reference designates (defined only on
live references). -/
def pushZerosLoop (h : Heap) (r : ℕ) : Heap :=
  if hcond : r < h.length ∧ (Heap.read h r).length < VECTOR_DIMENSIONS then
    pushZerosLoop (Heap.write h r (Heap.read h r ++ [0])) r
  else
    h
termination_by 1536 - (Heap.read h r).length
decreasing_by
  have hread : Heap.read (Heap.write h r (Heap.read h r ++ [0])) r =
      Heap.read h r ++ [0] := by
    unfold Heap.read Heap.write
    rw [List.getD_eq_getElem?_getD, List.getElem?_set_self',
      List.getElem?_eq_getElem hcond.1]
    rfl
  rw [hread, List.length_append, List.length_singleton]
  have hlen := hcond.2
  unfold VECTOR_DIMENSIONS at hlen
  omega

/-- `normalizeEmbedding` as the heap-level program: at the canonical length
the argument reference itself is returned; above it, `slice(0, 1536)`
allocates a fresh truncated array; below it, `[...embedding]` allocates a
fresh copy and the while loop pushes zeros onto that copy. -/
def normalizeEmbeddingHeap (h : Heap) (embedding : ℕ) : Heap × ℕ :=
  if (Heap.read h embedding).length = VECTOR_DIMENSIONS then
    (h, embedding)
  else if VECTOR_DIMENSIONS < (Heap.read h embedding).length then
    Heap.alloc h ((Heap.read h embedding).take VECTOR_DIMENSIONS)
  else
    (pushZerosLoop (h ++ [Heap.read h embedding]) h.length, h.length)

theorem normalizeEmbedding_length (v : List ℚ) :
    (normalizeEmbedding v).length = VECTOR_DIMENSIONS := by
  unfold normalizeEmbedding
  rcases lt_trichotomy v.length VECTOR_DIMENSIONS with h | h | h
  · rw [if_neg (by omega), if_neg (by omega)]
    rw [List.length_append, List.length_replicate]
    omega
  · rw [if_pos h]
    exact h
  · rw [if_neg (by omega), if_pos h]
    rw [List.length_take]
    omega

theorem normalizeEmbedding_eq_self_of_length (v : List ℚ)
    (h : v.length = VECTOR_DIMENSIONS) : normalizeEmbedding v = v := by
  unfold normalizeEmbedding
  rw [if_pos h]

/-- Claim C1: the normalizer returns `v` unchanged at length 1536, returns
exactly the first 1536 components above 1536, and below 1536 returns a
length-1536 vector whose first `v.length` components are `v` and whose
remaining components are all zero. -/
theorem normalizeEmbedding_cases (v : List ℚ) :
    (v.length = 1536 → normalizeEmbedding v = v) ∧
    (1536 < v.length → normalizeEmbedding v = v.take 1536) ∧
    (v.length < 1536 →
      (normalizeEmbedding v).length = 1536 ∧
      (normalizeEmbedding v).take v.length = v ∧
      ∀ i, v.length ≤ i → (normalizeEmbedding v).getD i 0 = 0) := by
  have hD : VECTOR_DIMENSIONS = 1536 := rfl
  refine ⟨fun h => normalizeEmbedding_eq_self_of_length v (by omega), fun h => ?_,
    fun h => ?_⟩
  · unfold normalizeEmbedding
    rw [if_neg (by omega), if_pos (by omega)]
    rw [hD]
  · have hpad : normalizeEmbedding v = v ++ List.replicate (1536 - v.length) 0 := by
      unfold normalizeEmbedding
      rw [if_neg (by omega), if_neg (by omega), hD]
    refine ⟨by rw [normalizeEmbedding_length, hD], ?_, ?_⟩
    · rw [hpad, List.take_append_of_le_length le_rfl, List.take_length]
    · intro i hi
      rw [hpad]
      rcases Nat.lt_or_ge i 1536 with hlt | hge
      · rw [List.getD_eq_getElem?_getD, List.getElem?_append_right hi]
        have hlen : i - v.length < (List.replicate (1536 - v.length) (0 : ℚ)).length := by
          rw [List.length_replicate]
          omega
        rw [List.getElem?_eq_getElem hlen]
        rw [List.getElem_replicate]
        rfl
      · rw [List.getD_eq_getElem?_getD, List.getElem?_eq_none]
        · rfl
        · rw [List.length_append, List.length_replicate]
          omega

/-- Claim C1 witness: the three cases at concrete vectors of lengths 1536,
2000 and 768. -/
theorem normalizeEmbedding_cases_w :
    normalizeEmbedding (List.replicate 1536 (1 : ℚ)) = List.replicate 1536 (1 : ℚ) ∧
    normalizeEmbedding (List.replicate 2000 (1 : ℚ)) =
      (List.replicate 2000 (1 : ℚ)).take 1536 ∧
    (normalizeEmbedding (List.replicate 768 (1 : ℚ))).take 768 =
      List.replicate 768 (1 : ℚ) ∧
    (normalizeEmbedding (List.replicate 768 (1 : ℚ))).getD 1000 0 = 0 := by
  refine ⟨(normalizeEmbedding_cases _).1 (by rw [List.length_replicate]),
    (normalizeEmbedding_cases _).2.1 (by rw [List.length_replicate]; omega), ?_, ?_⟩
  · have h := ((normalizeEmbedding_cases (List.replicate 768 (1 : ℚ))).2.2
      (by rw [List.length_replicate]; omega)).2.1
    rw [List.length_replicate] at h
    exact h
  · have h := ((normalizeEmbedding_cases (List.replicate 768 (1 : ℚ))).2.2
      (by rw [List.length_replicate]; omega)).2.2
    exact h 1000 (by rw [List.length_replicate]; omega)

/-- Claim C3: the normalizer is idempotent and always produces a vector of
length exactly 1536. -/
theorem normalizeEmbedding_idempotent (v : List ℚ) :
    normalizeEmbedding (normalizeEmbedding v) = normalizeEmbedding v ∧
    (normalizeEmbedding v).length = 1536 :=
  ⟨normalizeEmbedding_eq_self_of_length _ (normalizeEmbedding_length v),
   normalizeEmbedding_length v⟩


theorem ensureClient_none (st : SupabaseStorage) (h : st.client = none) :
    ensureClient st = .error notInitError := by
  unfold ensureClient
  rw [h]

theorem ensureClient_some (st : SupabaseStorage) (h : st.client = some ()) :
    ensureClient st = .ok () := by
  unfold ensureClient
  rw [h]

/-- Claim C4: invoking any storage operation on a backend whose client has
not been initialized fails with the distinct "not initialized" error (the
`ensureClient` message), not a generic or PostgREST error, and returns the
state with the stored rows unchanged. -/
theorem uninit_ops_fail (st : SupabaseStorage) (h : st.client = none) :
    (∀ c e t s i n, saveNote st c e t s i n = (.error notInitError, st)) ∧
    (∀ id, getNote st id = (.error notInitError, st)) ∧
    getAllNotes st = (.error notInitError, st) ∧
    (∀ id u now, updateNote st id u now = (.error notInitError, st)) ∧
    (∀ id, deleteNote st id = (.error notInitError, st)) ∧
    (∀ m q, searchNotes m st q = (.error notInitError, st)) ∧
    (∀ dist e l, searchByVector dist st e l = (.error notInitError, st)) ∧
    (∀ tag, searchByTag st tag = (.error notInitError, st)) ∧
    (∀ l, getRecentNotes st l = (.error notInitError, st)) ∧
    getTags st = (.error notInitError, st) ∧
    clearAll st = (.error notInitError, st) := by
  have he := ensureClient_none st h
  refine ⟨?_, ?_, ?_, ?_, ?_, ?_, ?_, ?_, ?_, ?_, ?_⟩ <;>
    simp [saveNote, getNote, getAllNotes, updateNote, deleteNote, searchNotes,
      searchByVector, searchByTag, getRecentNotes, getTags, clearAll, he]

/-- Claim C4 witness: three of the operations on a concrete uninitialized
backend. -/
theorem uninit_ops_fail_w :
    (SupabaseStorage.mk none []).client = none ∧
    getNote ⟨none, []⟩ "a" = (.error notInitError, ⟨none, []⟩) ∧
    clearAll ⟨none, []⟩ = (.error notInitError, ⟨none, []⟩) ∧
    searchByVector (fun _ _ => 0) ⟨none, []⟩ [1] 5 = (.error notInitError, ⟨none, []⟩) :=
  ⟨rfl, (uninit_ops_fail ⟨none, []⟩ rfl).2.1 "a",
   (uninit_ops_fail ⟨none, []⟩ rfl).2.2.2.2.2.2.2.2.2.2,
   (uninit_ops_fail ⟨none, []⟩ rfl).2.2.2.2.2.2.1 (fun _ _ => 0) [1] 5⟩

/-- Claim C6: for an id not present in the table, the point lookup through
`.single()` yields the row-not-found error with code `PGRST116`, and
`getNote` maps it to the null result with the state unchanged, rather than
propagating it as a failure. -/
theorem getNote_missing_is_none (st : SupabaseStorage) (id : String)
    (hc : st.client = some ()) (habs : ∀ r ∈ st.rows, r.id ≠ id) :
    single (st.rows.filter (fun r => decide (r.id = id))) =
      .error (.postgrest "PGRST116"
        "JSON object requested, multiple (or no) rows returned") ∧
    getNote st id = (.ok none, st) := by
  have he := ensureClient_some st hc
  have hfilter : st.rows.filter (fun r => decide (r.id = id)) = [] := by
    rw [List.filter_eq_nil_iff]
    intro r hr
    simpa using habs r hr
  constructor
  · rw [hfilter]
    rfl
  · simp [getNote, he, hfilter, single, StorageError.errCode]

/-- Claim C6 witness: lookup of an absent id on a concrete one-row backend. -/
theorem getNote_missing_is_none_w :
    (SupabaseStorage.mk (some ()) [⟨"n1", "hello", [1], ["t"], ⟨"u", "p", 5⟩, 5, 5⟩]).client
      = some () ∧
    getNote ⟨some (), [⟨"n1", "hello", [1], ["t"], ⟨"u", "p", 5⟩, 5, 5⟩]⟩ "n2" =
      (.ok none, ⟨some (), [⟨"n1", "hello", [1], ["t"], ⟨"u", "p", 5⟩, 5, 5⟩]⟩) :=
  ⟨rfl,
   (getNote_missing_is_none ⟨some (), [⟨"n1", "hello", [1], ["t"], ⟨"u", "p", 5⟩, 5, 5⟩]⟩
     "n2" rfl (by decide)).2⟩

/-- Claim C7 counterexample: `deleteNote` on an absent id succeeds with the
unit result on a concrete initialized backend; it does not fail with an
error. -/
theorem deleteNote_missing_cex :
    deleteNote ⟨some (), []⟩ "missing" = (.ok (), ⟨some (), []⟩) := by
  rfl

/-- Claim C7 as amended: for every id not present in the backend,
`deleteNote` succeeds silently (the remote delete matches zero rows and
reports no error) and leaves the state unchanged. -/
theorem deleteNote_missing_succeeds (st : SupabaseStorage) (id : String)
    (hc : st.client = some ()) (habs : ∀ r ∈ st.rows, r.id ≠ id) :
    deleteNote st id = (.ok (), st) := by
  have he := ensureClient_some st hc
  unfold deleteNote
  rw [he]
  have hkeep : st.rows.filter (fun r => decide (¬ r.id = id)) = st.rows := by
    rw [List.filter_eq_self]
    intro r hr
    simpa using habs r hr
  rw [hkeep]

/-- Claim C7 (amended) witness: deleting an absent id on a concrete one-row
backend. -/
theorem deleteNote_missing_succeeds_w :
    (SupabaseStorage.mk (some ()) [⟨"n1", "hello", [1], ["t"], ⟨"u", "p", 5⟩, 5, 5⟩]).client
      = some () ∧
    deleteNote ⟨some (), [⟨"n1", "hello", [1], ["t"], ⟨"u", "p", 5⟩, 5, 5⟩]⟩ "n2" =
      (.ok (), ⟨some (), [⟨"n1", "hello", [1], ["t"], ⟨"u", "p", 5⟩, 5, 5⟩]⟩) :=
  ⟨rfl,
   deleteNote_missing_succeeds ⟨some (), [⟨"n1", "hello", [1], ["t"], ⟨"u", "p", 5⟩, 5, 5⟩]⟩
     "n2" rfl (by decide)⟩

/-- Claim C8: `getTags` succeeds without touching the state and returns a
duplicate-free list, sorted in the string order, containing exactly the
tags occurring in some stored note. -/
theorem getTags_distinct_sorted (st : SupabaseStorage) (hc : st.client = some ()) :
    ∃ tags, getTags st = (.ok tags, st) ∧
      tags.Nodup ∧
      tags.Sorted (fun a b => a ≤ b) ∧
      ∀ t, t ∈ tags ↔ ∃ r ∈ st.rows, t ∈ r.tags := by
  have he := ensureClient_some st hc
  refine ⟨((st.rows.flatMap (fun r => r.tags)).dedup).insertionSort (fun a b => a ≤ b),
    by simp [getTags, he], ?_, ?_, ?_⟩
  · exact (List.perm_insertionSort _ _).nodup_iff.mpr (List.nodup_dedup _)
  · exact List.sorted_insertionSort _ _
  · intro t
    rw [(List.perm_insertionSort _ _).mem_iff, List.mem_dedup, List.mem_flatMap]

/-- Claim C8 witness: two notes with overlapping tag sets on a concrete
backend. -/
theorem getTags_distinct_sorted_w :
    (SupabaseStorage.mk (some ())
      [⟨"n1", "a", [1], ["x", "b"], ⟨"u", "p", 5⟩, 5, 5⟩,
       ⟨"n2", "c", [2], ["b", "a"], ⟨"u", "p", 6⟩, 6, 6⟩]).client = some () ∧
    (∃ tags, getTags ⟨some (),
        [⟨"n1", "a", [1], ["x", "b"], ⟨"u", "p", 5⟩, 5, 5⟩,
         ⟨"n2", "c", [2], ["b", "a"], ⟨"u", "p", 6⟩, 6, 6⟩]⟩ =
        (.ok tags, ⟨some (),
          [⟨"n1", "a", [1], ["x", "b"], ⟨"u", "p", 5⟩, 5, 5⟩,
           ⟨"n2", "c", [2], ["b", "a"], ⟨"u", "p", 6⟩, 6, 6⟩]⟩) ∧
      tags.Nodup ∧
      tags.Sorted (fun a b => a ≤ b) ∧
      ∀ t, t ∈ tags ↔ ∃ r ∈ [⟨"n1", "a", [1], ["x", "b"], ⟨"u", "p", 5⟩, 5, 5⟩,
        (⟨"n2", "c", [2], ["b", "a"], ⟨"u", "p", 6⟩, 6, 6⟩ : NoteRow)], t ∈ r.tags) :=
  ⟨rfl, getTags_distinct_sorted ⟨some (),
    [⟨"n1", "a", [1], ["x", "b"], ⟨"u", "p", 5⟩, 5, 5⟩,
     ⟨"n2", "c", [2], ["b", "a"], ⟨"u", "p", 6⟩, 6, 6⟩]⟩ rfl⟩

/-- Claim C9 counterexample: a stored note whose id is the zero UUID used in
the `neq` filter survives `clearAll` and is still retrievable by `getNote`
afterwards. -/
theorem clearAll_zero_id_cex :
    clearAll ⟨some (),
        [⟨"00000000-0000-0000-0000-000000000000", "kept", [1], ["t"], ⟨"u", "p", 5⟩, 5, 5⟩]⟩ =
      (.ok (), ⟨some (),
        [⟨"00000000-0000-0000-0000-000000000000", "kept", [1], ["t"], ⟨"u", "p", 5⟩, 5, 5⟩]⟩) ∧
    (getNote (clearAll ⟨some (),
        [⟨"00000000-0000-0000-0000-000000000000", "kept", [1], ["t"], ⟨"u", "p", 5⟩, 5, 5⟩]⟩).2
        "00000000-0000-0000-0000-000000000000").1 =
      .ok (some ⟨"00000000-0000-0000-0000-000000000000", "kept", [1], ["t"], ⟨"u", "p", 5⟩, 5, 5⟩) := by
  constructor <;> rfl

/-- Claim C9 as amended: `clearAll` succeeds and deletes every note whose id
differs from the zero UUID `00000000-0000-0000-0000-000000000000` appearing
in its not-equals filter; in particular, when no stored note carries that
sentinel id (backend-assigned ids are version-4 UUIDs, which never equal
it), no note at all remains. -/
theorem clearAll_deletes_nonzero_ids (st : SupabaseStorage) (hc : st.client = some ()) :
    (clearAll st).1 = .ok () ∧
    (∀ r ∈ (clearAll st).2.rows,
      r.id = "00000000-0000-0000-0000-000000000000" ∧ r ∈ st.rows) ∧
    ((∀ r ∈ st.rows, r.id ≠ "00000000-0000-0000-0000-000000000000") →
      clearAll st = (.ok (), ⟨st.client, []⟩)) := by
  have he := ensureClient_some st hc
  refine ⟨by simp [clearAll, he], ?_, ?_⟩
  · intro r hr
    simp only [clearAll, he] at hr
    have := List.mem_filter.mp hr
    exact ⟨by simpa using this.2, this.1⟩
  · intro habs
    simp only [clearAll, he]
    have hfilter : st.rows.filter
        (fun r => decide (r.id = "00000000-0000-0000-0000-000000000000")) = [] := by
      rw [List.filter_eq_nil_iff]
      intro r hr
      simpa using habs r hr
    rw [hfilter]

/-- Claim C9 (amended) witness: clearing a concrete backend holding two
ordinarily-identified notes empties it. -/
theorem clearAll_deletes_nonzero_ids_w :
    (SupabaseStorage.mk (some ())
      [⟨"n1", "a", [1], ["t"], ⟨"u", "p", 5⟩, 5, 5⟩,
       ⟨"n2", "b", [2], [], ⟨"u", "p", 6⟩, 6, 6⟩]).client = some () ∧
    ((∀ r ∈ (SupabaseStorage.mk (some ())
        [⟨"n1", "a", [1], ["t"], ⟨"u", "p", 5⟩, 5, 5⟩,
         ⟨"n2", "b", [2], [], ⟨"u", "p", 6⟩, 6, 6⟩]).rows,
        r.id ≠ "00000000-0000-0000-0000-000000000000") →
      clearAll ⟨some (),
        [⟨"n1", "a", [1], ["t"], ⟨"u", "p", 5⟩, 5, 5⟩,
         ⟨"n2", "b", [2], [], ⟨"u", "p", 6⟩, 6, 6⟩]⟩ = (.ok (), ⟨some (), []⟩)) ∧
    clearAll ⟨some (),
        [⟨"n1", "a", [1], ["t"], ⟨"u", "p", 5⟩, 5, 5⟩,
         ⟨"n2", "b", [2], [], ⟨"u", "p", 6⟩, 6, 6⟩]⟩ = (.ok (), ⟨some (), []⟩) :=
  ⟨rfl,
   (clearAll_deletes_nonzero_ids ⟨some (),
     [⟨"n1", "a", [1], ["t"], ⟨"u", "p", 5⟩, 5, 5⟩,
      ⟨"n2", "b", [2], [], ⟨"u", "p", 6⟩, 6, 6⟩]⟩ rfl).2.2,
   (clearAll_deletes_nonzero_ids ⟨some (),
     [⟨"n1", "a", [1], ["t"], ⟨"u", "p", 5⟩, 5, 5⟩,
      ⟨"n2", "b", [2], [], ⟨"u", "p", 6⟩, 6, 6⟩]⟩ rfl).2.2 (by decide)⟩

theorem updateNote_unique_row (st : SupabaseStorage) (id : String) (r : NoteRow)
    (u : NoteUpdates) (now : Int) (hc : st.client = some ())
    (hr : st.rows.filter (fun x => decide (x.id = id)) = [r]) :
    updateNote st id u now =
      (.ok (toNote (applyUpdates u now r)),
       ⟨st.client, st.rows.map (fun x => if x.id = id then applyUpdates u now x else x)⟩) ∧
    ∀ x ∈ (updateNote st id u now).2.rows, x.id = id → x = applyUpdates u now r := by
  have he := ensureClient_some st hc
  have hsingle : single (st.rows.filter (fun x => decide (x.id = id))) = .ok r := by
    rw [hr]
    rfl
  have heq : updateNote st id u now =
      (.ok (toNote (applyUpdates u now r)),
       ⟨st.client, st.rows.map (fun x => if x.id = id then applyUpdates u now x else x)⟩) := by
    simp only [updateNote, he, hsingle]
  refine ⟨heq, ?_⟩
  intro x hx hxid
  rw [heq] at hx
  obtain ⟨y, hy, hxy⟩ := List.mem_map.mp hx
  by_cases hyid : y.id = id
  · have hyr : y = r := by
      have hmem : y ∈ st.rows.filter (fun x => decide (x.id = id)) :=
        List.mem_filter.mpr ⟨hy, by simpa using hyid⟩
      rw [hr] at hmem
      simpa using hmem
    rw [← hxy, if_pos hyid, hyr]
  · rw [← hxy, if_neg hyid] at hxid
    exact absurd hxid hyid

/-- Claim C5: an update supplying only new tags leaves the note's `content`,
`embedding`, `source` and `createdAt` unchanged (in the returned note and in
the stored row) and strictly increases `updatedAt`, given that the clock
reading `now` is later than the stored `updated_at`; and any update that
supplies a replacement embedding stores it normalized to length 1536. -/
theorem updateNote_frame (st : SupabaseStorage) (id : String) (r : NoteRow)
    (newTags : List String) (now : Int)
    (hc : st.client = some ())
    (hr : st.rows.filter (fun x => decide (x.id = id)) = [r])
    (hnow : r.updated_at < now) :
    (∃ n st', updateNote st id ⟨none, none, some newTags, none⟩ now = (.ok n, st') ∧
      n.content = r.content ∧ n.embedding = r.embedding ∧ n.source = r.source ∧
      n.createdAt = r.created_at ∧ r.updated_at < n.updatedAt ∧ n.tags = newTags ∧
      ∀ x ∈ st'.rows, x.id = id →
        x.content = r.content ∧ x.embedding = r.embedding ∧ x.source = r.source ∧
        x.created_at = r.created_at ∧ r.updated_at < x.updated_at) ∧
    (∀ u : NoteUpdates, ∀ e, u.embedding = some e →
      ∃ n st', updateNote st id u now = (.ok n, st') ∧
        n.embedding = normalizeEmbedding e ∧ n.embedding.length = 1536 ∧
        ∀ x ∈ st'.rows, x.id = id → x.embedding = normalizeEmbedding e) := by
  constructor
  · obtain ⟨heq, hrow⟩ := updateNote_unique_row st id r ⟨none, none, some newTags, none⟩ now hc hr
    refine ⟨toNote (applyUpdates ⟨none, none, some newTags, none⟩ now r), _, heq,
      rfl, rfl, rfl, rfl, hnow, rfl, ?_⟩
    intro x hx hxid
    have hxeq : x = applyUpdates ⟨none, none, some newTags, none⟩ now r := by
      apply hrow
      · rw [heq]
        exact hx
      · exact hxid
    rw [hxeq]
    exact ⟨rfl, rfl, rfl, rfl, hnow⟩
  · intro u e hue
    obtain ⟨heq, hrow⟩ := updateNote_unique_row st id r u now hc hr
    have hemb : (applyUpdates u now r).embedding = normalizeEmbedding e := by
      unfold applyUpdates
      rw [hue]
    refine ⟨toNote (applyUpdates u now r), _, heq, hemb, ?_, ?_⟩
    · show (applyUpdates u now r).embedding.length = 1536
      rw [hemb]
      exact normalizeEmbedding_length e
    · intro x hx hxid
      have hxeq : x = applyUpdates u now r := by
        apply hrow
        · rw [heq]
          exact hx
        · exact hxid
      rw [hxeq]
      exact hemb

/-- Claim C5 witness: a tags-only update and an embedding-carrying update of
a concrete stored note. -/
theorem updateNote_frame_w :
    (SupabaseStorage.mk (some ()) [⟨"n1", "body", [1, 2], ["old"], ⟨"u", "p", 5⟩, 5, 7⟩]).client
      = some () ∧
    (SupabaseStorage.mk (some ()) [⟨"n1", "body", [1, 2], ["old"], ⟨"u", "p", 5⟩, 5, 7⟩]).rows.filter
      (fun x => decide (x.id = "n1")) = [⟨"n1", "body", [1, 2], ["old"], ⟨"u", "p", 5⟩, 5, 7⟩] ∧
    ((7 : Int) < 10) ∧
    ((∃ n st', updateNote ⟨some (), [⟨"n1", "body", [1, 2], ["old"], ⟨"u", "p", 5⟩, 5, 7⟩]⟩
        "n1" ⟨none, none, some ["new"], none⟩ 10 = (.ok n, st') ∧
        n.content = "body" ∧ n.embedding = [1, 2] ∧ n.source = ⟨"u", "p", 5⟩ ∧
        n.createdAt = 5 ∧ (7 : Int) < n.updatedAt ∧ n.tags = ["new"] ∧
        ∀ x ∈ st'.rows, x.id = "n1" →
          x.content = "body" ∧ x.embedding = [1, 2] ∧ x.source = ⟨"u", "p", 5⟩ ∧
          x.created_at = 5 ∧ (7 : Int) < x.updated_at) ∧
      (∀ u : NoteUpdates, ∀ e, u.embedding = some e →
        ∃ n st', updateNote ⟨some (), [⟨"n1", "body", [1, 2], ["old"], ⟨"u", "p", 5⟩, 5, 7⟩]⟩
            "n1" u 10 = (.ok n, st') ∧
          n.embedding = normalizeEmbedding e ∧ n.embedding.length = 1536 ∧
          ∀ x ∈ st'.rows, x.id = "n1" → x.embedding = normalizeEmbedding e)) :=
  ⟨rfl, by decide, by decide,
   updateNote_frame ⟨some (), [⟨"n1", "body", [1, 2], ["old"], ⟨"u", "p", 5⟩, 5, 7⟩]⟩
     "n1" ⟨"n1", "body", [1, 2], ["old"], ⟨"u", "p", 5⟩, 5, 7⟩ ["new"] 10
     rfl (by decide) (by decide)⟩

theorem match_notes_mem (dist : List ℚ → List ℚ → ℚ) (rows : List NoteRow)
    (q : List ℚ) (t : ℚ) (c : ℕ) (d : NoteRow × ℚ)
    (hd : d ∈ match_notes dist rows q t c) :
    d.1 ∈ rows ∧ t < 1 - dist d.1.embedding q := by
  unfold match_notes at hd
  have hd2 := (List.mem_insertionSort _).mp
    (List.mem_of_mem_take hd)
  obtain ⟨r, hrmem, hrd⟩ := List.mem_map.mp hd2
  have hfil := List.mem_filter.mp hrmem
  refine ⟨?_, ?_⟩
  · rw [← hrd]
    exact hfil.1
  · rw [← hrd]
    exact of_decide_eq_true hfil.2

/-- Claim C2: with an initialized backend, `searchByVector` succeeds without
touching the state; it returns at most `limit` notes, each with similarity
`1 - dist` to the normalized query strictly above the 0.3 threshold (so
never below it), in descending-similarity order; the no-limit entry point
uses 10; and when no stored row clears the threshold the result is the
empty list, not an error. -/
theorem searchByVector_spec (dist : List ℚ → List ℚ → ℚ) (st : SupabaseStorage)
    (q : List ℚ) (limit : ℕ) (hc : st.client = some ()) :
    ∃ notes : List Note,
      searchByVector dist st q limit = (.ok notes, st) ∧
      notes.length ≤ limit ∧
      (∀ n ∈ notes, (3 : ℚ) / 10 < 1 - dist n.embedding (normalizeEmbedding q)) ∧
      notes.Sorted (fun a b =>
        1 - dist b.embedding (normalizeEmbedding q) ≤
          1 - dist a.embedding (normalizeEmbedding q)) ∧
      searchByVectorDefault dist st q = searchByVector dist st q 10 ∧
      ((∀ r ∈ st.rows, ¬ ((3 : ℚ) / 10 < 1 - dist r.embedding (normalizeEmbedding q))) →
        notes = []) := by
  have he := ensureClient_some st hc
  refine ⟨(match_notes dist st.rows (normalizeEmbedding q) (3 / 10) limit).map
    (fun d => toNote d.1), ?_, ?_, ?_, ?_, rfl, ?_⟩
  · simp [searchByVector, he]
  · rw [List.length_map]
    unfold match_notes
    exact List.length_take_le _ _
  · intro n hn
    obtain ⟨d, hd, hdn⟩ := List.mem_map.mp hn
    have hprop := match_notes_mem dist st.rows (normalizeEmbedding q) (3 / 10) limit d hd
    rw [← hdn]
    exact hprop.2
  · rw [List.Sorted, List.pairwise_map]
    unfold match_notes
    have htrans : IsTrans (NoteRow × ℚ) (fun a b =>
        dist a.1.embedding (normalizeEmbedding q) ≤ dist b.1.embedding (normalizeEmbedding q)) :=
      ⟨fun _ _ _ hab hbc => le_trans hab hbc⟩
    have htotal : IsTotal (NoteRow × ℚ) (fun a b =>
        dist a.1.embedding (normalizeEmbedding q) ≤ dist b.1.embedding (normalizeEmbedding q)) :=
      ⟨fun _ _ => le_total _ _⟩
    have hsorted := List.sorted_insertionSort (fun (a b : NoteRow × ℚ) =>
      dist a.1.embedding (normalizeEmbedding q) ≤ dist b.1.embedding (normalizeEmbedding q))
      ((st.rows.filter (fun r => decide ((3 : ℚ) / 10 <
          1 - dist r.embedding (normalizeEmbedding q)))).map
        (fun r => (r, 1 - dist r.embedding (normalizeEmbedding q))))
    have hsorted' := hsorted.sublist (List.take_sublist limit _)
    exact hsorted'.imp (fun hab => sub_le_sub_left hab 1)
  · intro habs
    have hfil : st.rows.filter
        (fun r => decide ((3 : ℚ) / 10 < 1 - dist r.embedding (normalizeEmbedding q))) = [] := by
      rw [List.filter_eq_nil_iff]
      intro r hr
      simpa using habs r hr
    unfold match_notes
    rw [hfil]
    simp

/-- Claim C2 witness: a two-row backend where one row clears the threshold
under a concrete distance function and one does not, queried with limit 5. -/
theorem searchByVector_spec_w :
    (SupabaseStorage.mk (some ())
      [⟨"n1", "a", [1], [], ⟨"u", "p", 5⟩, 5, 5⟩,
       ⟨"n2", "b", [2], [], ⟨"u", "p", 6⟩, 6, 6⟩]).client = some () ∧
    (∃ notes : List Note,
      searchByVector (fun e _ => if e = [1] then 0 else 1)
        ⟨some (),
          [⟨"n1", "a", [1], [], ⟨"u", "p", 5⟩, 5, 5⟩,
           ⟨"n2", "b", [2], [], ⟨"u", "p", 6⟩, 6, 6⟩]⟩ [1, 1] 5 =
        (.ok notes, ⟨some (),
          [⟨"n1", "a", [1], [], ⟨"u", "p", 5⟩, 5, 5⟩,
           ⟨"n2", "b", [2], [], ⟨"u", "p", 6⟩, 6, 6⟩]⟩) ∧
      notes.length ≤ 5 ∧
      (∀ n ∈ notes, (3 : ℚ) / 10 <
        1 - (fun (e : List ℚ) (_ : List ℚ) => if e = [1] then (0 : ℚ) else 1) n.embedding
          (normalizeEmbedding [1, 1])) ∧
      notes.Sorted (fun a b =>
        1 - (fun (e : List ℚ) (_ : List ℚ) => if e = [1] then (0 : ℚ) else 1) b.embedding
            (normalizeEmbedding [1, 1]) ≤
          1 - (fun (e : List ℚ) (_ : List ℚ) => if e = [1] then (0 : ℚ) else 1) a.embedding
            (normalizeEmbedding [1, 1])) ∧
      searchByVectorDefault (fun e _ => if e = [1] then 0 else 1)
          ⟨some (),
            [⟨"n1", "a", [1], [], ⟨"u", "p", 5⟩, 5, 5⟩,
             ⟨"n2", "b", [2], [], ⟨"u", "p", 6⟩, 6, 6⟩]⟩ [1, 1] =
        searchByVector (fun e _ => if e = [1] then 0 else 1)
          ⟨some (),
            [⟨"n1", "a", [1], [], ⟨"u", "p", 5⟩, 5, 5⟩,
             ⟨"n2", "b", [2], [], ⟨"u", "p", 6⟩, 6, 6⟩]⟩ [1, 1] 10 ∧
      ((∀ r ∈ (SupabaseStorage.mk (some ())
          [⟨"n1", "a", [1], [], ⟨"u", "p", 5⟩, 5, 5⟩,
           ⟨"n2", "b", [2], [], ⟨"u", "p", 6⟩, 6, 6⟩]).rows,
          ¬ ((3 : ℚ) / 10 <
            1 - (fun (e : List ℚ) (_ : List ℚ) => if e = [1] then (0 : ℚ) else 1) r.embedding
              (normalizeEmbedding [1, 1]))) →
        notes = [])) :=
  ⟨rfl,
   searchByVector_spec (fun e _ => if e = [1] then 0 else 1)
     ⟨some (),
       [⟨"n1", "a", [1], [], ⟨"u", "p", 5⟩, 5, 5⟩,
        ⟨"n2", "b", [2], [], ⟨"u", "p", 6⟩, 6, 6⟩]⟩ [1, 1] 5 rfl⟩

theorem heap_read_write_self (h : Heap) (r : ℕ) (v : List ℚ) (hr : r < h.length) :
    Heap.read (Heap.write h r v) r = v := by
  unfold Heap.read Heap.write
  rw [List.getD_eq_getElem?_getD, List.getElem?_set_self', List.getElem?_eq_getElem hr]
  rfl

theorem heap_read_write_ne (h : Heap) (r r' : ℕ) (v : List ℚ) (hne : r' ≠ r) :
    Heap.read (Heap.write h r v) r' = Heap.read h r' := by
  unfold Heap.read Heap.write
  rw [List.getD_eq_getElem?_getD, List.getD_eq_getElem?_getD,
    List.getElem?_set_ne (Ne.symm hne)]

theorem heap_read_append_lt (h : Heap) (v : List ℚ) (r : ℕ) (hr : r < h.length) :
    Heap.read (h ++ [v]) r = Heap.read h r := by
  unfold Heap.read
  rw [List.getD_eq_getElem?_getD, List.getD_eq_getElem?_getD,
    List.getElem?_append_left hr]

theorem heap_read_append_self (h : Heap) (v : List ℚ) :
    Heap.read (h ++ [v]) h.length = v := by
  unfold Heap.read
  rw [List.getD_eq_getElem?_getD, List.getElem?_append_right le_rfl]
  simp

theorem pushZerosLoop_read_ne (h : Heap) (r : ℕ) :
    ∀ r', r' ≠ r → Heap.read (pushZerosLoop h r) r' = Heap.read h r' := by
  induction h, r using pushZerosLoop.induct with
  | case1 h r hcond ih =>
    intro r' hne
    rw [pushZerosLoop, dif_pos hcond, ih r' hne, heap_read_write_ne h r r' _ hne]
  | case2 h r hcond =>
    intro r' _
    rw [pushZerosLoop, dif_neg hcond]

theorem pushZerosLoop_read_self (h : Heap) (r : ℕ) :
    r < h.length →
    Heap.read (pushZerosLoop h r) r =
      Heap.read h r ++ List.replicate (VECTOR_DIMENSIONS - (Heap.read h r).length) 0 := by
  induction h, r using pushZerosLoop.induct with
  | case1 h r hcond ih =>
    intro _
    rw [pushZerosLoop, dif_pos hcond]
    have hwlen : r < (Heap.write h r (Heap.read h r ++ [0])).length := by
      unfold Heap.write
      rw [List.length_set]
      exact hcond.1
    rw [ih hwlen, heap_read_write_self h r _ hcond.1, List.append_assoc]
    congr 1
    rw [List.length_append, List.length_singleton]
    have hlt := hcond.2
    have hsplit : VECTOR_DIMENSIONS - (Heap.read h r).length =
        (VECTOR_DIMENSIONS - ((Heap.read h r).length + 1)) + 1 := by
      unfold VECTOR_DIMENSIONS at hlt ⊢
      omega
    rw [hsplit, List.replicate_succ]
    rfl
  | case2 h r hcond =>
    intro hr
    rw [pushZerosLoop, dif_neg hcond]
    have hge : ¬ (Heap.read h r).length < VECTOR_DIMENSIONS := by
      intro hlen
      exact hcond ⟨hr, hlen⟩
    have hz : VECTOR_DIMENSIONS - (Heap.read h r).length = 0 := by omega
    rw [hz]
    simp

/-- Claim C10: the heap-level normalizer never mutates its argument array:
in all three cases the cell the argument reference designates holds exactly
the same elements in the same order after the call, while the returned
reference holds `normalizeEmbedding` of the input. -/
theorem normalizeEmbeddingHeap_no_mutation (h : Heap) (r : ℕ) (hr : r < h.length) :
    Heap.read (normalizeEmbeddingHeap h r).1 r = Heap.read h r ∧
    Heap.read (normalizeEmbeddingHeap h r).1 (normalizeEmbeddingHeap h r).2 =
      normalizeEmbedding (Heap.read h r) := by
  unfold normalizeEmbeddingHeap
  by_cases h1 : (Heap.read h r).length = VECTOR_DIMENSIONS
  · rw [if_pos h1]
    exact ⟨rfl, (normalizeEmbedding_eq_self_of_length _ h1).symm⟩
  · by_cases h2 : VECTOR_DIMENSIONS < (Heap.read h r).length
    · rw [if_neg h1, if_pos h2]
      unfold Heap.alloc
      refine ⟨heap_read_append_lt h _ r hr, ?_⟩
      rw [heap_read_append_self]
      unfold normalizeEmbedding
      rw [if_neg h1, if_pos h2]
    · rw [if_neg h1, if_neg h2]
      have hlive : h.length < (h ++ [Heap.read h r]).length := by
        rw [List.length_append, List.length_singleton]
        omega
      constructor
      · rw [pushZerosLoop_read_ne (h ++ [Heap.read h r]) h.length r (Nat.ne_of_lt hr),
          heap_read_append_lt h _ r hr]
      · rw [pushZerosLoop_read_self (h ++ [Heap.read h r]) h.length hlive,
          heap_read_append_self]
        unfold normalizeEmbedding
        rw [if_neg h1, if_neg h2]

/-- Claim C10 witness: a one-cell heap holding a length-2 vector. -/
theorem normalizeEmbeddingHeap_no_mutation_w :
    (0 : ℕ) < ([[1, 2]] : Heap).length ∧
    (Heap.read (normalizeEmbeddingHeap [[1, 2]] 0).1 0 = Heap.read [[1, 2]] 0 ∧
     Heap.read (normalizeEmbeddingHeap [[1, 2]] 0).1 (normalizeEmbeddingHeap [[1, 2]] 0).2 =
       normalizeEmbedding (Heap.read [[1, 2]] 0)) :=
  ⟨by decide, normalizeEmbeddingHeap_no_mutation [[1, 2]] 0 (by decide)⟩

end SupabaseStorage

end Squirrel
